import Mathlib

/-! # chat-cli: session and routing layer

A shallow embedding of the server side of the chat application
(`server/server.go`, `server/chatroom.go`, `storage/database.go`,
`models/user.go`) together with the payload the client builds
(`client/client.go`), and the properties of the routing layer proved
or refuted over it.

Modelling conventions.

* A Go `string` is a list of characters.  The only separator the program
  splits on is the ASCII space, one byte in UTF-8 that never occurs inside a
  multi-byte sequence, so splitting characters and splitting bytes agree.
* A `*websocket.Conn` is `Option Nat`: `none` is the nil pointer and
  `some k` is the k-th connection object allocated.
* A Go `map` is an association list.  `get?` reads the first entry under a
  key, `set` overwrites that entry or appends a new one, `delete` drops every
  entry under the key.  `for ... range` visits the entries in list order
  (Go leaves the order unspecified; the properties below concern which
  entries are visited, not their order).
* A `*models.User` is a value: the only write to a `User` after its
  construction is `user.Conn = conn` in `handleAuth`, made before the pointer
  is published in `server.clients`.
* A `*ChatRoom` lives in `server.rooms`; a method that works through the
  pointer returns the new room, which is stored back under its name.
* Handlers return the new server state and the list of their outputs
  (`Effect`), oldest first.
-/

namespace ChatCli

abbrev GoString := List Char

/-- A websocket connection pointer; `none` is nil. -/
abbrev WsConn := Option Nat

/-! ## Go maps as association lists -/

namespace GoMap

variable {K V : Type} [DecidableEq K]

/-- Map read `m[k]` with the comma-ok form: `none` when the key is absent. -/
def get? : List (K × V) → K → Option V
  | [], _ => none
  | (k0, v0) :: rest, k => if k0 = k then some v0 else get? rest k

/-- Map write `m[k] = v`. -/
def set : List (K × V) → K → V → List (K × V)
  | [], k, v => [(k, v)]
  | (k0, v0) :: rest, k, v => if k0 = k then (k0, v) :: rest else (k0, v0) :: set rest k v

/-- Builtin `delete(m, k)`. -/
def delete : List (K × V) → K → List (K × V)
  | [], _ => []
  | (k0, v0) :: rest, k => if k0 = k then delete rest k else (k0, v0) :: delete rest k

/-- Apply `f` to every value, as a `range` loop calling a pointer method does. -/
def mapVals (f : V → V) : List (K × V) → List (K × V)
  | [] => []
  | (k0, v0) :: rest => (k0, f v0) :: mapVals f rest

end GoMap

/-! ## strings.SplitN -/

/-- Whether `sep` starts the string `s` (`strings.HasPrefix`). -/
def startsWith : GoString → GoString → Bool
  | _, [] => true
  | [], _ :: _ => false
  | c :: s, d :: sep => c = d && startsWith s sep

/-- Go `strings.Index(s, sep)`: position of the first occurrence of `sep`. -/
def Index : GoString → GoString → Option Nat
  | [], sep => if startsWith [] sep then some 0 else none
  | c :: s, sep =>
    if startsWith (c :: s) sep then some 0
    else match Index s sep with
      | some m => some (m + 1)
      | none => none

/-- The loop of `genSplit`: at most `k` cuts, the rest stays whole. -/
def splitLoop (sep : GoString) : Nat → GoString → List GoString
  | 0, s => [s]
  | k + 1, s =>
    match Index s sep with
    | none => [s]
    | some m => s.take m :: splitLoop sep k (s.drop (m + sep.length))

/-- The call `explode(s, k + 1)` of Go: the first `k` characters one by one, then
the rest, and nothing for the empty string. -/
def explode : GoString → Nat → List GoString
  | [], _ => []
  | s, 0 => [s]
  | c :: s, k + 1 => if s = [] then [[c]] else [c] :: explode s k

/-- Go `strings.SplitN(s, sep, n)` for `0 ≤ n` (`genSplit` with `sepSave = 0`):
`nil` for `n = 0`, `explode` for the empty separator, otherwise `n` clamped to
`len(s) + 1` and at most `n - 1` cuts at the leftmost separators. -/
def SplitN (s sep : GoString) (n : Nat) : List GoString :=
  if n = 0 then []
  else if sep = [] then explode s (n - 1)
  else splitLoop sep ((if s.length + 1 < n then s.length + 1 else n) - 1) s

/-! ## models.User, server.Message -/

/-- The struct `models.User`. -/
structure User where
  ID : Int
  Username : GoString
  Password : GoString
  Conn : WsConn
deriving DecidableEq

/-- The struct `server.Message`, the envelope on the wire (`MsgType` is the
field `Type`). -/
structure Message where
  MsgType : GoString
  Payload : GoString
deriving DecidableEq

/-- What a handler does besides changing the server state. -/
inductive Effect where
  /-- A `log.Printf` or `log.Println` line. -/
  | log (line : GoString)
  /-- The call `conn.WriteJSON(msg)`. -/
  | writeJSON (conn : WsConn) (msg : Message)
  /-- One run of the guarded body of the loop of `BroadcastMessage` for a
  member: `log.Printf("Sending message to user %s\n", user.Username)`. -/
  | broadcastStep (member : User)
deriving DecidableEq

/-! ## storage -/

/-- A row of the table `users`. -/
structure UserRow where
  id : Int
  username : GoString
  password : GoString
deriving DecidableEq

/-- The identity store the server talks to: the rows of `users` and the
verdict of `bcrypt.CompareHashAndPassword(hash, password)`. -/
structure Store where
  users : List UserRow
  CompareHashAndPassword : GoString → GoString → Bool

/-- The row query of `GetUserByUsername`: first row with this username. -/
def queryRow : List UserRow → GoString → Option UserRow
  | [], _ => none
  | r :: rest, username => if r.username = username then some r else queryRow rest username

/-- Go `storage.GetUserByUsername`: scans id, username and password into a fresh
`User`; the field `Conn` keeps its zero value nil. -/
def GetUserByUsername (db : Store) (username : GoString) : Except GoString User :=
  match queryRow db.users username with
  | none => Except.error "sql: no rows in result set".toList
  | some r => Except.ok ⟨r.id, r.username, r.password, none⟩

/-- Go `storage.AuthenticateUser`. -/
def AuthenticateUser (db : Store) (username password : GoString) : Except GoString User :=
  match GetUserByUsername db username with
  | Except.error e => Except.error e
  | Except.ok user =>
    if db.CompareHashAndPassword user.Password password then Except.ok user
    else Except.error "invalid credentials".toList

/-! ## server/chatroom.go -/

/-- The struct `ChatRoom`; `Users` is keyed by user id. -/
structure ChatRoom where
  Name : GoString
  Users : List (Int × User)
deriving DecidableEq

def CreateChatRoom (name : GoString) : ChatRoom := ⟨name, []⟩

/-- Go `(*ChatRoom).JoinChatRoom`: the new room and the returned error
(`none` is nil). -/
def ChatRoom.JoinChatRoom (room : ChatRoom) (user : User) : ChatRoom × Option GoString :=
  match GoMap.get? room.Users user.ID with
  | some _ => (room, none)
  | none => (⟨room.Name, GoMap.set room.Users user.ID user⟩, none)

/-- Go `(*ChatRoom).LeaveChatRoom`. -/
def ChatRoom.LeaveChatRoom (room : ChatRoom) (user : User) : ChatRoom :=
  ⟨room.Name, GoMap.delete room.Users user.ID⟩

/-- The loop of `BroadcastMessage` over the entries of `room.Users`. -/
def broadcastLoop : List (Int × User) → List Effect
  | [] => []
  | (_, user) :: rest =>
    if user.Conn ≠ none then Effect.broadcastStep user :: broadcastLoop rest
    else broadcastLoop rest

/-- Go `(*ChatRoom).BroadcastMessage`. -/
def ChatRoom.BroadcastMessage (room : ChatRoom) (_sender : User) (_message : GoString) :
    ChatRoom × List Effect :=
  (room, broadcastLoop room.Users)

/-! ## server/server.go -/

/-- The struct `WebSocketServer` (its two maps). -/
structure WebSocketServer where
  clients : List (WsConn × User)
  rooms : List (GoString × ChatRoom)
deriving DecidableEq

def NewWebSocketServer : WebSocketServer := ⟨[], []⟩

def handleAuth (db : Store) (server : WebSocketServer) (conn : WsConn) (payload : GoString) :
    WebSocketServer × List Effect :=
  match SplitN payload " ".toList 2 with
  | [username, password] =>
    match AuthenticateUser db username password with
    | Except.error err =>
      (server, [Effect.log ("Authentication failed for user ".toList ++ username ++ ": ".toList ++ err)])
    | Except.ok user =>
      (⟨GoMap.set server.clients conn ⟨user.ID, user.Username, user.Password, conn⟩, server.rooms⟩,
       [Effect.log ("User ".toList ++ username ++ " authenticated successfully".toList)])
  | _ => (server, [Effect.log ("Invalid auth payload: ".toList ++ payload)])

def handleJoin (server : WebSocketServer) (conn : WsConn) (roomName : GoString) :
    WebSocketServer × List Effect :=
  match GoMap.get? server.clients conn with
  | none => (server, [Effect.log "User not authenticated".toList])
  | some user =>
    let rooms1 := match GoMap.get? server.rooms roomName with
      | some _ => server.rooms
      | none => GoMap.set server.rooms roomName (CreateChatRoom roomName)
    let room := match GoMap.get? server.rooms roomName with
      | some r => r
      | none => CreateChatRoom roomName
    match room.JoinChatRoom user with
    | (room1, some err) =>
      (⟨server.clients, GoMap.set rooms1 roomName room1⟩,
       [Effect.log ("Error adding user to room: ".toList ++ err)])
    | (room1, none) =>
      (⟨server.clients, GoMap.set rooms1 roomName room1⟩,
       [Effect.log ("User ".toList ++ user.Username ++ " joined room ".toList ++ roomName)])

def handleRoomMessage (server : WebSocketServer) (conn : WsConn) (payload : GoString) :
    WebSocketServer × List Effect :=
  match SplitN payload " ".toList 2 with
  | [roomName, message] =>
    match GoMap.get? server.clients conn with
    | none => (server, [Effect.log "User not authenticated".toList])
    | some user =>
      match GoMap.get? server.rooms roomName with
      | none => (server, [Effect.log ("Room ".toList ++ roomName ++ " does not exist".toList)])
      | some room =>
        let out := room.BroadcastMessage user message
        (⟨server.clients, GoMap.set server.rooms roomName out.1⟩, out.2)
  | _ => (server, [Effect.log ("Invalid room message payload: ".toList ++ payload)])

/-- Go `sendMessageToUser`: the `WriteJSON` call.  The log line of its error
branch depends on the transport and is left out. -/
def sendMessageToUser (user : User) (sender message : GoString) : List Effect :=
  [Effect.writeJSON user.Conn ⟨"dm".toList, sender ++ ": ".toList ++ message⟩]

def handleDirectMessage (db : Store) (server : WebSocketServer) (conn : WsConn)
    (payload : GoString) : WebSocketServer × List Effect :=
  match SplitN payload " ".toList 2 with
  | [username, message] =>
    match GoMap.get? server.clients conn with
    | none => (server, [Effect.log "User not authenticated".toList])
    | some sender =>
      match GetUserByUsername db username with
      | Except.error err =>
        (server, [Effect.log ("User ".toList ++ username ++ " not found: ".toList ++ err)])
      | Except.ok receiver =>
        match GoMap.get? server.clients receiver.Conn with
        | some receiverUser =>
          if receiverUser.Conn ≠ none then
            (server, sendMessageToUser receiverUser sender.Username message)
          else
            (server, [Effect.log ("User ".toList ++ receiver.Username ++ " has no active connection".toList)])
        | none =>
          (server, [Effect.log ("User ".toList ++ receiver.Username ++ " has no active connection".toList)])
  | _ => (server, [Effect.log ("Invalid direct message payload: ".toList ++ payload)])

def handleDisconnect (server : WebSocketServer) (conn : WsConn) :
    WebSocketServer × List Effect :=
  match GoMap.get? server.clients conn with
  | some user =>
    (⟨GoMap.delete server.clients conn,
      GoMap.mapVals (fun room => room.LeaveChatRoom user) server.rooms⟩,
     [Effect.log "User disconnected".toList])
  | none => (server, [Effect.log "User disconnected".toList])

/-- What the read loop of `handleConnections` sees on a connection. -/
inductive Event where
  /-- A frame was read and unmarshalled into a `Message`. -/
  | message (conn : Nat) (msg : Message)
  /-- Go `conn.ReadMessage()` returned an error: the loop cleans up and ends. -/
  | readError (conn : Nat)
deriving DecidableEq

/-- One iteration of the loop of `handleConnections`. -/
def handleEvent (db : Store) (server : WebSocketServer) : Event → WebSocketServer × List Effect
  | Event.readError conn => handleDisconnect server (some conn)
  | Event.message conn msg =>
    let out :=
      if msg.MsgType = "auth".toList then handleAuth db server (some conn) msg.Payload
      else if msg.MsgType = "join".toList then handleJoin server (some conn) msg.Payload
      else if msg.MsgType = "room".toList then handleRoomMessage server (some conn) msg.Payload
      else if msg.MsgType = "dm".toList then handleDirectMessage db server (some conn) msg.Payload
      else (server, [Effect.log ("Unknown message type: ".toList ++ msg.MsgType)])
    (out.1, Effect.log ("Payload ".toList ++ msg.Payload ++ "\n".toList) :: out.2)

/-- The server processing a sequence of events, one after the other; the
outputs accumulate. -/
def run (db : Store) : WebSocketServer → List Event → WebSocketServer × List Effect
  | server, [] => (server, [])
  | server, ev :: rest =>
    let out := handleEvent db server ev
    let out2 := run db out.1 rest
    (out2.1, out.2 ++ out2.2)

/-! ## The payloads the client builds (client/client.go) -/

/-- Payload of `SendMessageToRoom`: `fmt.Sprintf("%s %s", roomName, message)`. -/
def roomPayload (roomName message : GoString) : GoString :=
  roomName ++ " ".toList ++ message

/-- Payload of `Authenticate`. -/
def authPayload (username password : GoString) : GoString :=
  username ++ " ".toList ++ password

/-- Payload of `SendDirectMessage`. -/
def dmPayload (username message : GoString) : GoString :=
  username ++ " ".toList ++ message

/-! ## A concrete identity store for the scenarios -/

/-- Two registered users.  The hash check is instantiated with equality, so the
stored password of a row is the password that authenticates it. -/
def demoStore : Store :=
  ⟨[⟨1, "alice".toList, "pw1".toList⟩, ⟨2, "bob".toList, "pw2".toList⟩],
   fun hash password => hash = password⟩

def authMsg (conn : Nat) (username password : String) : Event :=
  Event.message conn ⟨"auth".toList, authPayload username.toList password.toList⟩

def joinMsg (conn : Nat) (roomName : String) : Event :=
  Event.message conn ⟨"join".toList, roomName.toList⟩

def roomMsg (conn : Nat) (roomName message : String) : Event :=
  Event.message conn ⟨"room".toList, roomPayload roomName.toList message.toList⟩

def dmMsg (conn : Nat) (username message : String) : Event :=
  Event.message conn ⟨"dm".toList, dmPayload username.toList message.toList⟩

/-! ## Reading the outputs -/

/-- The envelopes written to connections, in order. -/
def sends : List Effect → List (WsConn × Message)
  | [] => []
  | Effect.writeJSON conn msg :: rest => (conn, msg) :: sends rest
  | _ :: rest => sends rest

/-- The members for which a broadcast ran its delivery step, in order. -/
def steps : List Effect → List User
  | [] => []
  | Effect.broadcastStep member :: rest => member :: steps rest
  | _ :: rest => steps rest

/-- The members of a room, in map order. -/
def ChatRoom.members (room : ChatRoom) : List User := room.Users.map Prod.snd

/-- Whether some member of the room is bound to connection `c`. -/
def ChatRoom.holdsConn (room : ChatRoom) (c : WsConn) : Bool :=
  room.Users.any (fun e => e.2.Conn = c)

/-- Whether some room of the server has a member bound to connection `c`. -/
def WebSocketServer.holdsConn (server : WebSocketServer) (c : WsConn) : Bool :=
  server.rooms.any (fun e => e.2.holdsConn c)

/-- Invariant I2 as a check: every member of every room is bound to a
connection that has an entry in `server.clients`. -/
def WebSocketServer.membersAuthenticated (server : WebSocketServer) : Bool :=
  server.rooms.all (fun e => e.2.Users.all (fun m => (GoMap.get? server.clients m.2.Conn).isSome))

/-- The join envelope for room `n` arriving on connection `c`. -/
def joinEvent (c : Nat) (n : GoString) : Event := Event.message c ⟨"join".toList, n⟩

/-- The room a join works on: the one stored under the name, or a fresh one. -/
def roomFor (server : WebSocketServer) (roomName : GoString) : ChatRoom :=
  match GoMap.get? server.rooms roomName with
  | some r => r
  | none => CreateChatRoom roomName

/-- Every session is bound to the connection it is stored under, and every
member of a room is stored under its own user id. -/
def WellBound (server : WebSocketServer) : Prop :=
  (∀ c u, GoMap.get? server.clients c = some u → u.Conn = c) ∧
  (∀ n room id m, GoMap.get? server.rooms n = some room →
    GoMap.get? room.Users id = some m → m.ID = id)

/-! ## Scenarios -/

/-- The session of alice on connection `k`, as `handleAuth` stores it. -/
def aliceOn (k : Nat) : User := ⟨1, "alice".toList, "pw1".toList, some k⟩

/-- The session of bob on connection `k`, as `handleAuth` stores it. -/
def bobOn (k : Nat) : User := ⟨2, "bob".toList, "pw2".toList, some k⟩

/-- Alice on connection 1 and bob on connection 2 are both authenticated. -/
def bothOnline : List Event := [authMsg 1 "alice" "pw1", authMsg 2 "bob" "pw2"]

/-- Connection 1 authenticates as alice, joins general, and authenticates
again as bob. -/
def rebind : List Event :=
  [authMsg 1 "alice" "pw1", joinMsg 1 "general", authMsg 1 "bob" "pw2"]

/-- Later traffic in the same room: bob comes back on connection 2, joins
general and writes to it. -/
def laterBroadcast : List Event :=
  [authMsg 2 "bob" "pw2", joinMsg 2 "general", roomMsg 2 "general" "anyone here"]

/-- Connection 3 joins lobby as alice, fails one auth as bob, succeeds at the
next, and closes. -/
def rebindAfterFailedAuth : List Event :=
  [authMsg 3 "alice" "pw1", joinMsg 3 "lobby", authMsg 3 "bob" "nope",
   authMsg 3 "bob" "pw2", Event.readError 3]

/-- Alice is in general through connection 1 and authenticates a second
connection, 2. -/
def secondDevice : List Event :=
  [authMsg 1 "alice" "pw1", joinMsg 1 "general", authMsg 2 "alice" "pw1"]

/-- Alice is authenticated on connections 1 and 2 and joins general from 2. -/
def twoDevicesOneRoom : List Event :=
  [authMsg 1 "alice" "pw1", authMsg 2 "alice" "pw1", joinMsg 2 "general"]

/-- Bob is in general through connection 2 while alice is online on 1. -/
def twoUsersOneRoom : List Event :=
  [authMsg 1 "alice" "pw1", authMsg 2 "bob" "pw2", joinMsg 2 "general"]

/-- Connection 1 joins general as alice and then once more as bob. -/
def sharedConnection : List Event :=
  [authMsg 1 "alice" "pw1", joinMsg 1 "general", authMsg 1 "bob" "pw2", joinMsg 1 "general"]

/-- The room general after `sharedConnection`. -/
def sharedRoom : ChatRoom := ⟨"general".toList, [(1, aliceOn 1), (2, bobOn 1)]⟩

/-- Alice joins general, bob joins general, bob disconnects, alice writes to
general. -/
def aliceAlone : List Event :=
  [authMsg 1 "alice" "pw1", joinMsg 1 "general", authMsg 2 "bob" "pw2", joinMsg 2 "general",
   Event.readError 2, roomMsg 1 "general" "hello again"]

/-! ## Lemmas on maps -/

namespace GoMap

variable {K V : Type} [DecidableEq K]

theorem get?_set_self (m : List (K × V)) (k : K) (v : V) : get? (set m k v) k = some v := by
  induction m with
  | nil => simp [set, get?]
  | cons e rest ih =>
    obtain ⟨k0, v0⟩ := e
    by_cases h : k0 = k
    · simp [set, get?, h]
    · simp [set, get?, h, ih]

theorem get?_set_ne (m : List (K × V)) (k k1 : K) (v : V) (h : k ≠ k1) :
    get? (set m k v) k1 = get? m k1 := by
  induction m with
  | nil => simp [set, get?, h]
  | cons e rest ih =>
    obtain ⟨k0, v0⟩ := e
    by_cases h0 : k0 = k
    · subst h0
      simp [set, get?, h]
    · by_cases h1 : k0 = k1
      · subst h1
        simp [set, get?, h0]
      · simp [set, get?, h0, h1, ih]

theorem set_of_get? (m : List (K × V)) (k : K) (v : V) (h : get? m k = some v) :
    set m k v = m := by
  induction m with
  | nil => simp [get?] at h
  | cons e rest ih =>
    obtain ⟨k0, v0⟩ := e
    by_cases h0 : k0 = k
    · simp [get?, h0] at h
      simp [set, h0, h]
    · simp [get?, h0] at h
      simp [set, h0, ih h]

theorem get?_delete_self (m : List (K × V)) (k : K) : get? (delete m k) k = none := by
  induction m with
  | nil => simp [delete, get?]
  | cons e rest ih =>
    obtain ⟨k0, v0⟩ := e
    by_cases h0 : k0 = k
    · simp [delete, h0, ih]
    · simp [delete, get?, h0, ih]

theorem get?_delete_ne (m : List (K × V)) (k k1 : K) (h : k ≠ k1) :
    get? (delete m k) k1 = get? m k1 := by
  induction m with
  | nil => simp [delete, get?]
  | cons e rest ih =>
    obtain ⟨k0, v0⟩ := e
    by_cases h0 : k0 = k
    · subst h0
      simp [delete, get?, h, ih]
    · by_cases h1 : k0 = k1
      · subst h1
        simp [delete, get?, h0]
      · simp [delete, get?, h0, h1, ih]

theorem get?_mapVals (f : V → V) (m : List (K × V)) (k : K) :
    get? (mapVals f m) k = (get? m k).map f := by
  induction m with
  | nil => simp [mapVals, get?]
  | cons e rest ih =>
    obtain ⟨k0, v0⟩ := e
    by_cases h0 : k0 = k
    · simp [mapVals, get?, h0]
    · simp [mapVals, get?, h0, ih]

end GoMap

/-! ## Lemmas on SplitN -/

theorem spaceStr : " ".toList = [' '] := rfl

theorem Index_space (p : GoString) :
    (Index p [' '] = none ∧ ' ' ∉ p) ∨
    (∃ m, Index p [' '] = some m ∧ ' ' ∉ p.take m ∧ p.take m ++ ' ' :: p.drop (m + 1) = p) := by
  induction p with
  | nil => left; simp [Index, startsWith]
  | cons c s ih =>
    by_cases hc : c = ' '
    · right
      exact ⟨0, by simp [Index, startsWith, hc], by simp, by simp [hc]⟩
    · rcases ih with ⟨h1, h2⟩ | ⟨m, h1, h2, h3⟩
      · left
        refine ⟨by simp [Index, startsWith, hc, h1], ?_⟩
        simp [h2, Ne.symm hc]
      · right
        refine ⟨m + 1, by simp [Index, startsWith, hc, h1], ?_, ?_⟩
        · simp [h2, Ne.symm hc]
        · simp [h3]

theorem SplitN_space_eq (p : GoString) :
    SplitN p " ".toList 2 =
      match Index p [' '] with
      | none => [p]
      | some m => [p.take m, p.drop (m + 1)] := by
  cases p with
  | nil => simp [SplitN, spaceStr, splitLoop, Index, startsWith]
  | cons c s =>
    simp only [SplitN, spaceStr, List.length_cons]
    simp [splitLoop]

theorem Index_space_append (a b : GoString) (h : ' ' ∉ a) :
    Index (a ++ ' ' :: b) [' '] = some a.length := by
  induction a with
  | nil => simp [Index, startsWith]
  | cons c s ih =>
    simp at h
    have hc : ¬ c = ' ' := fun e => h.1 e.symm
    simp [Index, startsWith, hc, ih h.2]

theorem SplitN_space_append (a b : GoString) (h : ' ' ∉ a) :
    SplitN (a ++ ' ' :: b) " ".toList 2 = [a, b] := by
  rw [SplitN_space_eq, Index_space_append a b h]
  simp

/-! ## Lemmas on the handlers -/

theorem JoinChatRoom_err (room : ChatRoom) (u : User) : (room.JoinChatRoom u).2 = none := by
  unfold ChatRoom.JoinChatRoom
  split <;> rfl

theorem JoinChatRoom_of_present (room : ChatRoom) (u m : User)
    (h : GoMap.get? room.Users u.ID = some m) : room.JoinChatRoom u = (room, none) := by
  simp [ChatRoom.JoinChatRoom, h]

theorem JoinChatRoom_users_get? (room : ChatRoom) (u : User) (id : Int) :
    GoMap.get? (room.JoinChatRoom u).1.Users id =
      if u.ID = id then
        (match GoMap.get? room.Users u.ID with
          | some m => some m
          | none => some u)
      else GoMap.get? room.Users id := by
  unfold ChatRoom.JoinChatRoom
  by_cases h : u.ID = id
  · subst h
    cases hg : GoMap.get? room.Users u.ID with
    | none => simp [GoMap.get?_set_self]
    | some m => simp [hg]
  · cases hg : GoMap.get? room.Users u.ID with
    | none => simp [h, GoMap.get?_set_ne _ _ _ _ h]
    | some m => simp [h]

theorem handleJoin_unauth (server : WebSocketServer) (c : WsConn) (n : GoString)
    (h : GoMap.get? server.clients c = none) :
    handleJoin server c n = (server, [Effect.log "User not authenticated".toList]) := by
  simp [handleJoin, h]

theorem handleJoin_clients (server : WebSocketServer) (c : WsConn) (n : GoString) :
    (handleJoin server c n).1.clients = server.clients := by
  unfold handleJoin
  split
  · rfl
  · simp only []
    split <;> rfl

theorem handleJoin_rooms_self (server : WebSocketServer) (c : WsConn) (n : GoString) (u : User)
    (h : GoMap.get? server.clients c = some u) :
    GoMap.get? (handleJoin server c n).1.rooms n = some ((roomFor server n).JoinChatRoom u).1 := by
  unfold handleJoin roomFor
  simp only [h]
  split <;> simp_all [GoMap.get?_set_self]

theorem handleJoin_rooms_ne (server : WebSocketServer) (c : WsConn) (n n1 : GoString)
    (hn : n ≠ n1) :
    GoMap.get? (handleJoin server c n).1.rooms n1 = GoMap.get? server.rooms n1 := by
  unfold handleJoin
  split
  · rfl
  · simp only []
    split <;> (simp only [GoMap.get?_set_ne _ _ _ _ hn]; split <;> simp [GoMap.get?_set_ne _ _ _ _ hn])

theorem handleRoomMessage_state (server : WebSocketServer) (c : WsConn) (payload : GoString) :
    (handleRoomMessage server c payload).1 = server := by
  unfold handleRoomMessage
  split
  · split
    · rfl
    · split
      · rfl
      · rename_i room hroom
        simp [ChatRoom.BroadcastMessage, GoMap.set_of_get? _ _ _ hroom]
  · rfl

theorem handleDirectMessage_state (db : Store) (server : WebSocketServer) (c : WsConn)
    (payload : GoString) : (handleDirectMessage db server c payload).1 = server := by
  unfold handleDirectMessage
  repeat (first | rfl | split)

theorem handleAuth_rooms (db : Store) (server : WebSocketServer) (c : WsConn)
    (payload : GoString) : (handleAuth db server c payload).1.rooms = server.rooms := by
  unfold handleAuth
  repeat (first | rfl | split)

theorem handleAuth_clients_get? (db : Store) (server : WebSocketServer) (c c1 : WsConn)
    (payload : GoString) (u : User)
    (h : GoMap.get? (handleAuth db server c payload).1.clients c1 = some u) :
    GoMap.get? server.clients c1 = some u ∨ (c1 = c ∧ u.Conn = c) := by
  unfold handleAuth at h
  split at h
  · split at h
    · left; exact h
    · by_cases hc : c = c1
      · subst hc
        simp [GoMap.get?_set_self] at h
        right
        exact ⟨rfl, by rw [← h]⟩
      · simp [GoMap.get?_set_ne _ _ _ _ hc] at h
        left; exact h
  · left; exact h

theorem sends_append (a b : List Effect) : sends (a ++ b) = sends a ++ sends b := by
  induction a with
  | nil => rfl
  | cons e rest ih => cases e <;> simp [sends, ih]

theorem steps_broadcastLoop (users : List (Int × User)) :
    steps (broadcastLoop users) = (users.map Prod.snd).filter (fun m => m.Conn ≠ none) := by
  induction users with
  | nil => rfl
  | cons e rest ih =>
    obtain ⟨id, m⟩ := e
    by_cases h : m.Conn = none
    · simp [broadcastLoop, h, ih]
    · simp [broadcastLoop, h, steps, ih]

theorem sends_broadcastLoop (users : List (Int × User)) : sends (broadcastLoop users) = [] := by
  induction users with
  | nil => rfl
  | cons e rest ih =>
    obtain ⟨id, m⟩ := e
    by_cases h : m.Conn = none
    · simp [broadcastLoop, h, ih]
    · simp [broadcastLoop, h, sends, ih]

theorem handleDisconnect_clients_ne (server : WebSocketServer) (c d : WsConn) (h : c ≠ d) :
    GoMap.get? (handleDisconnect server c).1.clients d = GoMap.get? server.clients d := by
  unfold handleDisconnect
  split
  · simp [GoMap.get?_delete_ne _ _ _ h]
  · rfl

theorem handleDisconnect_clients_self (server : WebSocketServer) (c : WsConn) :
    GoMap.get? (handleDisconnect server c).1.clients c = none := by
  unfold handleDisconnect
  split
  · simp [GoMap.get?_delete_self]
  · assumption

theorem handleDisconnect_clients_sub (server : WebSocketServer) (c d : WsConn) (u : User)
    (h : GoMap.get? (handleDisconnect server c).1.clients d = some u) :
    GoMap.get? server.clients d = some u := by
  by_cases hc : c = d
  · subst hc
    rw [handleDisconnect_clients_self] at h
    cases h
  · rwa [handleDisconnect_clients_ne _ _ _ hc] at h

theorem handleDisconnect_rooms (server : WebSocketServer) (c : WsConn) (n : GoString) :
    GoMap.get? (handleDisconnect server c).1.rooms n =
      match GoMap.get? server.clients c with
      | some u => (GoMap.get? server.rooms n).map (fun room => room.LeaveChatRoom u)
      | none => GoMap.get? server.rooms n := by
  unfold handleDisconnect
  split <;> simp [GoMap.get?_mapVals]

theorem LeaveChatRoom_users_get? (room : ChatRoom) (u : User) (id : Int) :
    GoMap.get? (room.LeaveChatRoom u).Users id =
      if u.ID = id then none else GoMap.get? room.Users id := by
  unfold ChatRoom.LeaveChatRoom
  by_cases h : u.ID = id
  · subst h
    simp [GoMap.get?_delete_self]
  · simp [h, GoMap.get?_delete_ne _ _ _ h]

/-- The state after an envelope, by its type. -/
theorem handleEvent_message_state (db : Store) (server : WebSocketServer) (conn : Nat)
    (msg : Message) :
    (handleEvent db server (Event.message conn msg)).1 =
      if msg.MsgType = "auth".toList then (handleAuth db server (some conn) msg.Payload).1
      else if msg.MsgType = "join".toList then (handleJoin server (some conn) msg.Payload).1
      else server := by
  unfold handleEvent
  simp only []
  split
  · rfl
  · split
    · rfl
    · split
      · exact handleRoomMessage_state _ _ _
      · split
        · exact handleDirectMessage_state _ _ _ _
        · rfl

theorem run_nil (db : Store) (server : WebSocketServer) : run db server [] = (server, []) := rfl

theorem run_cons_state (db : Store) (server : WebSocketServer) (ev : Event) (rest : List Event) :
    (run db server (ev :: rest)).1 = (run db (handleEvent db server ev).1 rest).1 := rfl

/-! ## Invariants of the states the server reaches -/

theorem WellBound_new : WellBound NewWebSocketServer := by
  constructor
  · intro c u h
    simp [NewWebSocketServer, GoMap.get?] at h
  · intro n room id m h
    simp [NewWebSocketServer, GoMap.get?] at h

theorem WellBound_handleAuth (db : Store) (server : WebSocketServer) (c : WsConn)
    (payload : GoString) (h : WellBound server) :
    WellBound (handleAuth db server c payload).1 := by
  constructor
  · intro c1 u hu
    rcases handleAuth_clients_get? db server c c1 payload u hu with h1 | ⟨h1, h2⟩
    · exact h.1 c1 u h1
    · rw [h1, h2]
  · rw [handleAuth_rooms]
    exact h.2

theorem WellBound_handleJoin (server : WebSocketServer) (c : WsConn) (n : GoString)
    (h : WellBound server) : WellBound (handleJoin server c n).1 := by
  constructor
  · rw [handleJoin_clients]
    exact h.1
  · intro n1 room id m hroom hm
    cases hc : GoMap.get? server.clients c with
    | none =>
      rw [handleJoin_unauth server c n hc] at hroom
      exact h.2 n1 room id m hroom hm
    | some u =>
      by_cases hn : n = n1
      · subst hn
        rw [handleJoin_rooms_self server c n u hc] at hroom
        injection hroom with hroom
        subst hroom
        rw [JoinChatRoom_users_get?] at hm
        by_cases hid : u.ID = id
        · rw [if_pos hid] at hm
          rw [hid] at hm
          cases hg : GoMap.get? (roomFor server n).Users id with
          | none =>
            rw [hg] at hm
            injection hm with hm
            rw [← hm, hid]
          | some m0 =>
            rw [hg] at hm
            injection hm with hm
            subst hm
            unfold roomFor at hg
            cases hr : GoMap.get? server.rooms n with
            | none =>
              rw [hr] at hg
              simp [CreateChatRoom, GoMap.get?] at hg
            | some r0 =>
              rw [hr] at hg
              exact h.2 n r0 id m0 hr hg
        · rw [if_neg hid] at hm
          unfold roomFor at hm
          cases hr : GoMap.get? server.rooms n with
          | none =>
            rw [hr] at hm
            simp [CreateChatRoom, GoMap.get?] at hm
          | some r0 =>
            rw [hr] at hm
            exact h.2 n r0 id m hr hm
      · rw [handleJoin_rooms_ne server c n n1 hn] at hroom
        exact h.2 n1 room id m hroom hm

theorem WellBound_handleDisconnect (server : WebSocketServer) (c : WsConn)
    (h : WellBound server) : WellBound (handleDisconnect server c).1 := by
  constructor
  · intro d u hu
    exact h.1 d u (handleDisconnect_clients_sub server c d u hu)
  · intro n room id m hroom hm
    rw [handleDisconnect_rooms] at hroom
    cases hc : GoMap.get? server.clients c with
    | none =>
      rw [hc] at hroom
      exact h.2 n room id m hroom hm
    | some u =>
      rw [hc] at hroom
      cases hr : GoMap.get? server.rooms n with
      | none =>
        rw [hr] at hroom
        cases hroom
      | some r0 =>
        rw [hr] at hroom
        simp only [Option.map_some'] at hroom
        injection hroom with hroom
        subst hroom
        rw [LeaveChatRoom_users_get?] at hm
        by_cases hid : u.ID = id
        · rw [if_pos hid] at hm
          cases hm
        · rw [if_neg hid] at hm
          exact h.2 n r0 id m hr hm

theorem WellBound_handleEvent (db : Store) (server : WebSocketServer) (ev : Event)
    (h : WellBound server) : WellBound (handleEvent db server ev).1 := by
  cases ev with
  | readError conn => exact WellBound_handleDisconnect server (some conn) h
  | message conn msg =>
    rw [handleEvent_message_state]
    split
    · exact WellBound_handleAuth db server _ _ h
    · split
      · exact WellBound_handleJoin server _ _ h
      · exact h

theorem WellBound_run (db : Store) (evs : List Event) :
    ∀ server, WellBound server → WellBound (run db server evs).1 := by
  induction evs with
  | nil => intro server h; exact h
  | cons ev rest ih =>
    intro server h
    rw [run_cons_state]
    exact ih _ (WellBound_handleEvent db server ev h)

/-! ## Which rooms exist -/

theorem hasRoom_handleEvent (db : Store) (server : WebSocketServer) (ev : Event) (n : GoString) :
    (GoMap.get? (handleEvent db server ev).1.rooms n).isSome = true ↔
      ((GoMap.get? server.rooms n).isSome = true ∨
        ∃ c, ev = joinEvent c n ∧ (GoMap.get? server.clients (some c)).isSome = true) := by
  cases ev with
  | readError conn =>
    have hno : ¬ ∃ c, Event.readError conn = joinEvent c n ∧
        (GoMap.get? server.clients (some c)).isSome = true := by
      simp [joinEvent]
    simp only [hno, or_false]
    show (GoMap.get? (handleDisconnect server (some conn)).1.rooms n).isSome = true ↔ _
    rw [handleDisconnect_rooms]
    split <;> simp
  | message conn msg =>
    obtain ⟨t, payload⟩ := msg
    rw [handleEvent_message_state]
    simp only []
    by_cases ha : t = "auth".toList
    · subst ha
      have hno : ¬ ∃ c, Event.message conn ⟨"auth".toList, payload⟩ = joinEvent c n ∧
          (GoMap.get? server.clients (some c)).isSome = true := by
        simp [joinEvent]
      simp only [hno, or_false, if_true, handleAuth_rooms]
    · by_cases hj : t = "join".toList
      · subst hj
        rw [if_neg ha, if_pos rfl]
        cases hc : GoMap.get? server.clients (some conn) with
        | none =>
          rw [handleJoin_unauth server _ payload hc]
          have hno : ¬ ∃ c, Event.message conn ⟨"join".toList, payload⟩ = joinEvent c n ∧
              (GoMap.get? server.clients (some c)).isSome = true := by
            rintro ⟨c, h1, h2⟩
            simp [joinEvent] at h1
            rw [← h1.1, hc] at h2
            simp at h2
          simp only [hno, or_false]
        | some u =>
          by_cases hn : payload = n
          · subst hn
            rw [handleJoin_rooms_self server _ payload u hc]
            simp only [Option.isSome_some, true_iff]
            right
            exact ⟨conn, rfl, by simp [hc]⟩
          · rw [handleJoin_rooms_ne server _ payload n hn]
            have hno : ¬ ∃ c, Event.message conn ⟨"join".toList, payload⟩ = joinEvent c n ∧
                (GoMap.get? server.clients (some c)).isSome = true := by
              rintro ⟨c, h1, _⟩
              simp [joinEvent] at h1
              exact hn h1.2
            simp only [hno, or_false]
      · rw [if_neg ha, if_neg hj]
        have hno : ¬ ∃ c, Event.message conn ⟨t, payload⟩ = joinEvent c n ∧
            (GoMap.get? server.clients (some c)).isSome = true := by
          rintro ⟨c, h1, _⟩
          simp [joinEvent] at h1
          exact hj h1.2.1
        simp only [hno, or_false]

theorem hasRoom_run (db : Store) (evs : List Event) (n : GoString) :
    ∀ server, (GoMap.get? (run db server evs).1.rooms n).isSome = true ↔
      ((GoMap.get? server.rooms n).isSome = true ∨
        ∃ pre c post, evs = pre ++ joinEvent c n :: post ∧
          (GoMap.get? (run db server pre).1.clients (some c)).isSome = true) := by
  induction evs with
  | nil =>
    intro server
    simp [run_nil]
  | cons ev rest ih =>
    intro server
    rw [run_cons_state, ih, hasRoom_handleEvent]
    constructor
    · rintro ((h | ⟨c, h1, h2⟩) | ⟨pre, c, post, h1, h2⟩)
      · exact Or.inl h
      · exact Or.inr ⟨[], c, rest, by simp [h1], by simpa [run_nil] using h2⟩
      · exact Or.inr ⟨ev :: pre, c, post, by simp [h1], by rw [run_cons_state]; exact h2⟩
    · rintro (h | ⟨pre, c, post, h1, h2⟩)
      · exact Or.inl (Or.inl h)
      · cases pre with
        | nil =>
          simp only [List.nil_append, List.cons.injEq] at h1
          exact Or.inl (Or.inr ⟨c, h1.1, by simpa [run_nil] using h2⟩)
        | cons e pre1 =>
          simp only [List.cons_append, List.cons.injEq] at h1
          obtain ⟨he, hrest⟩ := h1
          subst he
          exact Or.inr ⟨pre1, c, post, hrest, by rw [run_cons_state] at h2; exact h2⟩

/-! ## What the server writes to connections -/

theorem handleAuth_sends (db : Store) (server : WebSocketServer) (c : WsConn)
    (payload : GoString) : sends (handleAuth db server c payload).2 = [] := by
  unfold handleAuth
  repeat (first | rfl | split)

theorem handleJoin_sends (server : WebSocketServer) (c : WsConn) (n : GoString) :
    sends (handleJoin server c n).2 = [] := by
  unfold handleJoin
  split
  · rfl
  · simp only []
    split <;> rfl

theorem handleRoomMessage_sends (server : WebSocketServer) (c : WsConn) (payload : GoString) :
    sends (handleRoomMessage server c payload).2 = [] := by
  unfold handleRoomMessage
  split
  · split
    · rfl
    · split
      · rfl
      · exact sends_broadcastLoop _
  · rfl

theorem GetUserByUsername_conn (db : Store) (username : GoString) (receiver : User)
    (h : GetUserByUsername db username = Except.ok receiver) : receiver.Conn = none := by
  unfold GetUserByUsername at h
  split at h
  · cases h
  · injection h with h
    rw [← h]

theorem handleDirectMessage_sends (db : Store) (server : WebSocketServer) (c : WsConn)
    (payload : GoString) (h : GoMap.get? server.clients none = none) :
    sends (handleDirectMessage db server c payload).2 = [] := by
  unfold handleDirectMessage
  split
  · split
    · rfl
    · split
      · rfl
      · rename_i receiver hrec
        rw [GetUserByUsername_conn db _ receiver hrec, h]
        rfl
  · rfl

theorem handleEvent_sends (db : Store) (server : WebSocketServer) (ev : Event)
    (h : GoMap.get? server.clients none = none) : sends (handleEvent db server ev).2 = [] := by
  cases ev with
  | readError conn =>
    show sends (handleDisconnect server (some conn)).2 = []
    unfold handleDisconnect
    split <;> rfl
  | message conn msg =>
    unfold handleEvent
    simp only [sends]
    split
    · exact handleAuth_sends _ _ _ _
    · split
      · exact handleJoin_sends _ _ _
      · split
        · exact handleRoomMessage_sends _ _ _
        · split
          · exact handleDirectMessage_sends _ _ _ _ h
          · rfl

theorem handleEvent_nil_key (db : Store) (server : WebSocketServer) (ev : Event)
    (h : GoMap.get? server.clients none = none) :
    GoMap.get? (handleEvent db server ev).1.clients none = none := by
  cases ev with
  | readError conn =>
    show GoMap.get? (handleDisconnect server (some conn)).1.clients none = none
    rw [handleDisconnect_clients_ne server (some conn) none (by simp)]
    exact h
  | message conn msg =>
    rw [handleEvent_message_state]
    split
    · cases hg : GoMap.get? (handleAuth db server (some conn) msg.Payload).1.clients none with
      | none => rfl
      | some u =>
        rcases handleAuth_clients_get? db server (some conn) none msg.Payload u hg with h1 | ⟨h1, _⟩
        · rw [h] at h1
          cases h1
        · cases h1
    · split
      · rw [handleJoin_clients]
        exact h
      · exact h

theorem run_sends (db : Store) (evs : List Event) :
    ∀ server, GoMap.get? server.clients none = none → sends (run db server evs).2 = [] := by
  induction evs with
  | nil => intro server _; rfl
  | cons ev rest ih =>
    intro server h
    show sends ((handleEvent db server ev).2 ++ (run db (handleEvent db server ev).1 rest).2) = []
    rw [sends_append, handleEvent_sends db server ev h,
      ih _ (handleEvent_nil_key db server ev h)]
    rfl

/-! ## Settled properties -/

/-- C7: the payload parser `strings.SplitN(p, " ", 2)` with the `len != 2` check
accepts `p` exactly when `p` contains a space; the two parts are then the
space-free text before the first space and everything after it, so joining
them with a space gives `p` back; hence the server recovers the room name and
the message from the payload `SendMessageToRoom` builds whenever the room name
has no space. -/
theorem C7_split_on_first_space (p : GoString) :
    ((SplitN p " ".toList 2).length = 2 ↔ ' ' ∈ p) ∧
    (∀ a b, SplitN p " ".toList 2 = [a, b] → ' ' ∉ a ∧ a ++ " ".toList ++ b = p) ∧
    (∀ roomName message, ' ' ∉ roomName →
      SplitN (roomPayload roomName message) " ".toList 2 = [roomName, message]) := by
  refine ⟨?_, ?_, ?_⟩
  · rw [SplitN_space_eq]
    rcases Index_space p with ⟨h1, h2⟩ | ⟨m, h1, _, h3⟩
    · simp [h1, h2]
    · simp only [h1, List.length_cons, List.length_nil, true_iff]
      rw [← h3]
      simp
  · intro a b hab
    rw [SplitN_space_eq] at hab
    rcases Index_space p with ⟨h1, _⟩ | ⟨m, h1, h2, h3⟩
    · simp [h1] at hab
    · simp only [h1] at hab
      simp only [List.cons.injEq, and_true] at hab
      obtain ⟨ha, hb⟩ := hab
      subst ha
      subst hb
      exact ⟨h2, by simpa [spaceStr] using h3⟩
  · intro roomName message h
    simpa [roomPayload, spaceStr] using SplitN_space_append roomName message h

/-- The room payload for general with a message of three words parses back. -/
theorem C7_split_on_first_space_witness :
    ' ' ∉ "general".toList ∧
    SplitN (roomPayload "general".toList "hello big world".toList) " ".toList 2 =
      ["general".toList, "hello big world".toList] :=
  ⟨by decide, (C7_split_on_first_space []).2.2 "general".toList "hello big world".toList (by decide)⟩

/-- C6: `JoinChatRoom` applied twice with the same user returns a nil error both
times and leaves the `Users` map of the first call untouched, so the second
call does not change the membership size. -/
theorem C6_join_idempotent (room : ChatRoom) (u : User) :
    (room.JoinChatRoom u).2 = none ∧
    ((room.JoinChatRoom u).1.JoinChatRoom u).2 = none ∧
    ((room.JoinChatRoom u).1.JoinChatRoom u).1.Users = (room.JoinChatRoom u).1.Users ∧
    ((room.JoinChatRoom u).1.JoinChatRoom u).1.Users.length =
      (room.JoinChatRoom u).1.Users.length := by
  have key : ((room.JoinChatRoom u).1.JoinChatRoom u).1 = (room.JoinChatRoom u).1 := by
    have hg := JoinChatRoom_users_get? room u u.ID
    rw [if_pos rfl] at hg
    have hs : ∃ m, GoMap.get? (room.JoinChatRoom u).1.Users u.ID = some m := by
      cases hr : GoMap.get? room.Users u.ID with
      | none => exact ⟨u, by rw [hg, hr]⟩
      | some m => exact ⟨m, by rw [hg, hr]⟩
    obtain ⟨m, hm⟩ := hs
    rw [JoinChatRoom_of_present _ u m hm]
  exact ⟨JoinChatRoom_err room u, JoinChatRoom_err _ u, by rw [key], by rw [key]⟩

/-- C3: on a connection with no entry in `server.clients`, a join, room or dm
envelope with any payload leaves the whole server state (clients, rooms and
every room's `Users`) as it was, writes to no connection and runs no
broadcast delivery step; this holds of each handler and of the dispatch in
`handleConnections` that calls it. -/
theorem C3_pre_auth_rejected (db : Store) (server : WebSocketServer) (c : WsConn)
    (payload : GoString) (h : GoMap.get? server.clients c = none) :
    ((handleJoin server c payload).1 = server ∧ sends (handleJoin server c payload).2 = [] ∧
      steps (handleJoin server c payload).2 = []) ∧
    ((handleRoomMessage server c payload).1 = server ∧
      sends (handleRoomMessage server c payload).2 = [] ∧
      steps (handleRoomMessage server c payload).2 = []) ∧
    ((handleDirectMessage db server c payload).1 = server ∧
      sends (handleDirectMessage db server c payload).2 = [] ∧
      steps (handleDirectMessage db server c payload).2 = []) ∧
    (∀ k t, c = some k → t = "join".toList ∨ t = "room".toList ∨ t = "dm".toList →
      (handleEvent db server (Event.message k ⟨t, payload⟩)).1 = server ∧
      sends (handleEvent db server (Event.message k ⟨t, payload⟩)).2 = [] ∧
      steps (handleEvent db server (Event.message k ⟨t, payload⟩)).2 = []) := by
  have hjoin : (handleJoin server c payload).1 = server ∧
      sends (handleJoin server c payload).2 = [] ∧ steps (handleJoin server c payload).2 = [] := by
    rw [handleJoin_unauth server c payload h]
    exact ⟨rfl, rfl, rfl⟩
  have hroom : (handleRoomMessage server c payload).1 = server ∧
      sends (handleRoomMessage server c payload).2 = [] ∧
      steps (handleRoomMessage server c payload).2 = [] := by
    refine ⟨handleRoomMessage_state server c payload, ?_, ?_⟩ <;>
    · unfold handleRoomMessage
      split <;> simp [h, sends, steps]
  have hdm : (handleDirectMessage db server c payload).1 = server ∧
      sends (handleDirectMessage db server c payload).2 = [] ∧
      steps (handleDirectMessage db server c payload).2 = [] := by
    refine ⟨handleDirectMessage_state db server c payload, ?_, ?_⟩ <;>
    · unfold handleDirectMessage
      split <;> simp [h, sends, steps]
  refine ⟨hjoin, hroom, hdm, ?_⟩
  intro k t hk ht
  subst hk
  rcases ht with ht | ht | ht <;> subst ht
  · exact ⟨hjoin.1, hjoin.2.1, hjoin.2.2⟩
  · exact ⟨hroom.1, hroom.2.1, hroom.2.2⟩
  · exact ⟨hdm.1, hdm.2.1, hdm.2.2⟩

/-- Envelopes on connection 7 of a fresh server, which has no session. -/
theorem C3_pre_auth_rejected_witness :
    (handleJoin NewWebSocketServer (some 7) "general".toList).1 = NewWebSocketServer ∧
    (handleRoomMessage NewWebSocketServer (some 7) "general hi".toList).1 = NewWebSocketServer ∧
    sends (handleDirectMessage demoStore NewWebSocketServer (some 7) "bob hi".toList).2 = [] ∧
    (handleEvent demoStore NewWebSocketServer
      (Event.message 7 ⟨"dm".toList, "bob hi".toList⟩)).1 = NewWebSocketServer :=
  have h := C3_pre_auth_rejected demoStore NewWebSocketServer (some 7)
  ⟨(h "general".toList (by decide)).1.1, (h "general hi".toList (by decide)).2.1.1,
    (h "bob hi".toList (by decide)).2.2.1.2.1,
    ((h "bob hi".toList (by decide)).2.2.2 7 "dm".toList rfl (by decide)).1⟩

/-- C8: starting from a fresh server, a room name is present in `server.rooms`
exactly when an earlier join envelope for that name was processed on a
connection that was authenticated at that moment; and a room envelope from an
authenticated connection whose room name is not in `server.rooms` leaves the
whole server state unchanged (no room is created), runs no delivery step and
writes to no connection. -/
theorem C8_unknown_room_rejected (db : Store) :
    (∀ evs n, (GoMap.get? (run db NewWebSocketServer evs).1.rooms n).isSome = true ↔
      ∃ pre c post, evs = pre ++ joinEvent c n :: post ∧
        (GoMap.get? (run db NewWebSocketServer pre).1.clients (some c)).isSome = true) ∧
    (∀ server c payload n text u, SplitN payload " ".toList 2 = [n, text] →
      GoMap.get? server.clients c = some u → GoMap.get? server.rooms n = none →
      (handleRoomMessage server c payload).1 = server ∧
      steps (handleRoomMessage server c payload).2 = [] ∧
      sends (handleRoomMessage server c payload).2 = []) := by
  refine ⟨?_, ?_⟩
  · intro evs n
    rw [hasRoom_run]
    simp [NewWebSocketServer, GoMap.get?]
  · intro server c payload n text u hsplit hc hroom
    refine ⟨handleRoomMessage_state server c payload, ?_, ?_⟩ <;>
    · unfold handleRoomMessage
      simp only [hsplit, hc, hroom]
      rfl

/-- The room general exists after bob joined it, and alice writing to the
room nowhere, which no one joined, changes nothing. -/
theorem C8_unknown_room_rejected_witness :
    (GoMap.get? (run demoStore NewWebSocketServer twoUsersOneRoom).1.rooms "general".toList).isSome
      = true ∧
    (handleRoomMessage (run demoStore NewWebSocketServer bothOnline).1 (some 1)
      "nowhere hi there".toList).1 = (run demoStore NewWebSocketServer bothOnline).1 :=
  ⟨((C8_unknown_room_rejected demoStore).1 twoUsersOneRoom "general".toList).2
      ⟨bothOnline, 2, [], by decide, by decide⟩,
    ((C8_unknown_room_rejected demoStore).2 (run demoStore NewWebSocketServer bothOnline).1
      (some 1) "nowhere hi there".toList "nowhere".toList "hi there".toList (aliceOn 1)
      (by decide) (by decide) (by decide)).1⟩

/-- C4 (as amended): in every state the server reaches, after `handleJoin(c, n)`
on an authenticated connection `c` the room `n` exists in `server.rooms` and
holds a member under the user id of the session of `c`.  That member is the
session of `c` itself, bound to `c`, when the room held no member under that
user id before (in particular when the room is new); otherwise the member
already stored under that id is kept as it was. -/
theorem C4_join_adds_user (db : Store) (evs : List Event) (c : WsConn) (n : GoString) (u : User)
    (h : GoMap.get? (run db NewWebSocketServer evs).1.clients c = some u) :
    ∃ room m,
      GoMap.get? (handleJoin (run db NewWebSocketServer evs).1 c n).1.rooms n = some room ∧
      GoMap.get? room.Users u.ID = some m ∧ m.ID = u.ID ∧
      ((∀ r0, GoMap.get? (run db NewWebSocketServer evs).1.rooms n = some r0 →
          GoMap.get? r0.Users u.ID = none) → m = u ∧ m.Conn = c) ∧
      (∀ r0 m0, GoMap.get? (run db NewWebSocketServer evs).1.rooms n = some r0 →
          GoMap.get? r0.Users u.ID = some m0 → m = m0) := by
  have hwb := WellBound_run db evs NewWebSocketServer WellBound_new
  have hwb1 := WellBound_handleJoin (run db NewWebSocketServer evs).1 c n hwb
  have hroom := handleJoin_rooms_self (run db NewWebSocketServer evs).1 c n u h
  have hget := JoinChatRoom_users_get? (roomFor (run db NewWebSocketServer evs).1 n) u u.ID
  rw [if_pos rfl] at hget
  cases hprev : GoMap.get? (roomFor (run db NewWebSocketServer evs).1 n).Users u.ID with
  | none =>
    rw [hprev] at hget
    refine ⟨_, u, hroom, hget, rfl, fun _ => ⟨rfl, hwb.1 c u h⟩, ?_⟩
    intro r0 m0 hr0 hm0
    simp only [roomFor, hr0] at hprev
    rw [hprev] at hm0
    cases hm0
  | some m =>
    rw [hprev] at hget
    refine ⟨_, m, hroom, hget, hwb1.2 n _ u.ID m hroom hget, ?_, ?_⟩
    · intro hnone
      cases hr : GoMap.get? (run db NewWebSocketServer evs).1.rooms n with
      | none =>
        simp [roomFor, hr, CreateChatRoom, GoMap.get?] at hprev
      | some r0 =>
        have h0 := hnone r0 hr
        simp only [roomFor, hr] at hprev
        rw [h0] at hprev
        cases hprev
    · intro r0 m0 hr0 hm0
      simp only [roomFor, hr0] at hprev
      rw [hprev] at hm0
      injection hm0

/-- Bob joins general, a new room, from connection 2 and is stored with it. -/
theorem C4_join_adds_user_witness :
    ∃ room m,
      GoMap.get? (handleJoin (run demoStore NewWebSocketServer bothOnline).1 (some 2)
        "general".toList).1.rooms "general".toList = some room ∧
      GoMap.get? room.Users 2 = some m ∧ m.Conn = some 2 := by
  obtain ⟨room, m, h1, h2, _, h3, _⟩ :=
    C4_join_adds_user demoStore bothOnline (some 2) "general".toList (bobOn 2) (by decide)
  have h0 : GoMap.get? (run demoStore NewWebSocketServer bothOnline).1.rooms "general".toList
      = none := by decide
  exact ⟨room, m, h1, h2, (h3 (fun r0 hr0 => by rw [h0] at hr0; cases hr0)).2⟩

/-- C4 fails as stated: alice is a member of general through connection 1;
her second connection 2 authenticates and joins general; the join is a no-op
and the room holds no member whose connection is 2. -/
theorem C4_counterexample :
    GoMap.get? (run demoStore NewWebSocketServer secondDevice).1.clients (some 2)
      = some (aliceOn 2) ∧
    (handleJoin (run demoStore NewWebSocketServer secondDevice).1 (some 2) "general".toList).1.rooms
      = [("general".toList, ⟨"general".toList, [(1, aliceOn 1)]⟩)] ∧
    (handleJoin (run demoStore NewWebSocketServer secondDevice).1 (some 2)
      "general".toList).1.holdsConn (some 2) = false := by
  decide

/-- C10 (as amended): in every state the server reaches and for distinct
connections `c` and `d`, `handleDisconnect(c)` leaves the entry of `d` in
`server.clients` unchanged, and every member bound to `d` stays in its room
unless it is stored under the user id of the session of `c` (rooms are keyed by
user id, so a membership of the same user is removed whichever connection it
was made from). -/
theorem C10_disconnect_frame (db : Store) (evs : List Event) (c d : WsConn) (hcd : c ≠ d) :
    GoMap.get? (handleDisconnect (run db NewWebSocketServer evs).1 c).1.clients d =
      GoMap.get? (run db NewWebSocketServer evs).1.clients d ∧
    (∀ n room id m, GoMap.get? (run db NewWebSocketServer evs).1.rooms n = some room →
      GoMap.get? room.Users id = some m → m.Conn = d →
      (∀ u, GoMap.get? (run db NewWebSocketServer evs).1.clients c = some u → u.ID ≠ m.ID) →
      ∃ room1,
        GoMap.get? (handleDisconnect (run db NewWebSocketServer evs).1 c).1.rooms n = some room1 ∧
        GoMap.get? room1.Users id = some m) := by
  have hwb := WellBound_run db evs NewWebSocketServer WellBound_new
  refine ⟨handleDisconnect_clients_ne _ c d hcd, ?_⟩
  intro n room id m hroom hm _ hne
  rw [handleDisconnect_rooms]
  cases hc : GoMap.get? (run db NewWebSocketServer evs).1.clients c with
  | none => exact ⟨room, hroom, hm⟩
  | some u =>
    refine ⟨room.LeaveChatRoom u, by simp [hroom], ?_⟩
    rw [LeaveChatRoom_users_get?]
    have hid : m.ID = id := hwb.2 n room id m hroom hm
    have hu : u.ID ≠ id := by
      rw [← hid]
      exact hne u hc
    rw [if_neg hu]
    exact hm

/-- Alice on connection 1 disconnects; bob on connection 2 keeps his session
and his membership of general. -/
theorem C10_disconnect_frame_witness :
    GoMap.get? (handleDisconnect (run demoStore NewWebSocketServer twoUsersOneRoom).1
      (some 1)).1.clients (some 2) = some (bobOn 2) ∧
    ∃ room1,
      GoMap.get? (handleDisconnect (run demoStore NewWebSocketServer twoUsersOneRoom).1
        (some 1)).1.rooms "general".toList = some room1 ∧
      GoMap.get? room1.Users 2 = some (bobOn 2) :=
  have h := C10_disconnect_frame demoStore twoUsersOneRoom (some 1) (some 2) (by decide)
  ⟨h.1.trans (by decide),
    h.2 "general".toList ⟨"general".toList, [(2, bobOn 2)]⟩ 2 (bobOn 2) (by decide) (by decide) rfl
      (fun u hu => by
        have h0 : GoMap.get? (run demoStore NewWebSocketServer twoUsersOneRoom).1.clients (some 1)
            = some (aliceOn 1) := by decide
        rw [h0] at hu
        injection hu with hu
        rw [← hu]
        decide)⟩

/-- C10 fails as stated: alice is authenticated on connections 1 and 2 and
is a member of general through connection 2; when connection 1 disconnects,
the entry of connection 2 in `server.clients` stays but its membership of
general is removed. -/
theorem C10_counterexample :
    (run demoStore NewWebSocketServer twoDevicesOneRoom).1.rooms
      = [("general".toList, ⟨"general".toList, [(1, aliceOn 2)]⟩)] ∧
    (run demoStore NewWebSocketServer twoDevicesOneRoom).1.holdsConn (some 2) = true ∧
    (handleDisconnect (run demoStore NewWebSocketServer twoDevicesOneRoom).1 (some 1)).1
      = ⟨[(some 2, aliceOn 2)], [("general".toList, ⟨"general".toList, []⟩)]⟩ ∧
    (handleDisconnect (run demoStore NewWebSocketServer twoDevicesOneRoom).1
      (some 1)).1.holdsConn (some 2) = false := by
  decide

/-- C5 (as amended): `BroadcastMessage` leaves the room unchanged and runs its
delivery step once for each entry of `Users` whose connection is not nil, in
map order and for no one else (the sender included when the sender is a
member).  Entries are keyed by user id, so a connection is stepped once for
every member bound to it: no connection is stepped twice when no two members
share a connection.  In the scenario alice joins general, bob joins general,
bob disconnects, alice writes to general, the only delivery step is the one
for alice. -/
theorem C5_broadcast_recipients (room : ChatRoom) (sender : User) (text : GoString) :
    (room.BroadcastMessage sender text).1 = room ∧
    steps (room.BroadcastMessage sender text).2 =
      room.members.filter (fun m => m.Conn ≠ none) ∧
    ((room.members.map User.Conn).Nodup →
      ((steps (room.BroadcastMessage sender text).2).map User.Conn).Nodup) ∧
    steps (run demoStore NewWebSocketServer aliceAlone).2 = [aliceOn 1] := by
  have hsteps : steps (room.BroadcastMessage sender text).2 =
      room.members.filter (fun m => m.Conn ≠ none) := steps_broadcastLoop room.Users
  refine ⟨rfl, hsteps, ?_, by decide⟩
  intro hnd
  rw [hsteps]
  exact List.Nodup.sublist ((List.filter_sublist _).map User.Conn) hnd

/-- A room with alice on connection 1 and bob on connection 2: one step per
connection. -/
theorem C5_broadcast_recipients_witness :
    ((steps ((ChatRoom.mk "general".toList [(1, aliceOn 1), (2, bobOn 2)]).BroadcastMessage
      (aliceOn 1) "hello".toList).2).map User.Conn).Nodup :=
  (C5_broadcast_recipients ⟨"general".toList, [(1, aliceOn 1), (2, bobOn 2)]⟩ (aliceOn 1)
    "hello".toList).2.2.1 (by decide)

/-- C5 fails as stated: connection 1 joins general as alice, authenticates
again as bob and joins general once more; the room then has two members on the
one connection 1, and a broadcast runs its delivery step twice for it. -/
theorem C5_counterexample :
    GoMap.get? (run demoStore NewWebSocketServer sharedConnection).1.rooms "general".toList
      = some sharedRoom ∧
    steps (sharedRoom.BroadcastMessage (bobOn 1) "hi".toList).2 = [aliceOn 1, bobOn 1] ∧
    (steps (sharedRoom.BroadcastMessage (bobOn 1) "hi".toList).2).map User.Conn
      = [some 1, some 1] ∧
    steps (handleRoomMessage (run demoStore NewWebSocketServer sharedConnection).1 (some 1)
      (roomPayload "general".toList "hi".toList)).2 = [aliceOn 1, bobOn 1] := by
  decide

/-- C1 fails on the code: no run of the server ever writes an envelope to a
connection.  With alice on connection 1 and bob on connection 2 both
authenticated, `GetUserByUsername` returns bob with a nil `Conn`, the lookup
`server.clients[receiver.Conn]` finds nothing, and the dm envelope of alice
for bob ends in the log line that bob has no active connection. -/
theorem C1_dm_not_delivered (db : Store) (evs : List Event) :
    sends (run db NewWebSocketServer evs).2 = [] ∧
    (run demoStore NewWebSocketServer bothOnline).1.clients
      = [(some 1, aliceOn 1), (some 2, bobOn 2)] ∧
    GetUserByUsername demoStore "bob".toList
      = Except.ok ⟨2, "bob".toList, "pw2".toList, none⟩ ∧
    handleDirectMessage demoStore (run demoStore NewWebSocketServer bothOnline).1 (some 1)
        (dmPayload "bob".toList "hi".toList)
      = ((run demoStore NewWebSocketServer bothOnline).1,
         [Effect.log "User bob has no active connection".toList]) := by
  refine ⟨run_sends db evs NewWebSocketServer rfl, by decide, rfl, by decide⟩

/-- C2 fails on the code: connection 1 joins general as alice and
authenticates again as bob; `handleDisconnect` on connection 1 then removes
only the user id of bob from the rooms, so connection 1 is gone from
`server.clients` while general still holds alice bound to connection 1, and
the next broadcast in general runs its delivery step for that member. -/
theorem C2_stale_member_after_disconnect :
    (run demoStore NewWebSocketServer rebind).1
      = ⟨[(some 1, bobOn 1)], [("general".toList, ⟨"general".toList, [(1, aliceOn 1)]⟩)]⟩ ∧
    (handleDisconnect (run demoStore NewWebSocketServer rebind).1 (some 1)).1
      = ⟨[], [("general".toList, ⟨"general".toList, [(1, aliceOn 1)]⟩)]⟩ ∧
    (handleDisconnect (run demoStore NewWebSocketServer rebind).1 (some 1)).1.holdsConn (some 1)
      = true ∧
    steps (run demoStore (handleDisconnect (run demoStore NewWebSocketServer rebind).1
      (some 1)).1 laterBroadcast).2 = [aliceOn 1, bobOn 2] := by
  decide

/-- C9 fails on the code: connection 3 joins lobby as alice, fails one auth,
authenticates as bob and closes; the state reached holds alice in lobby bound
to connection 3, which has no entry in `server.clients`. -/
theorem C9_member_without_session :
    (run demoStore NewWebSocketServer rebindAfterFailedAuth).1
      = ⟨[], [("lobby".toList, ⟨"lobby".toList, [(1, aliceOn 3)]⟩)]⟩ ∧
    GoMap.get? (run demoStore NewWebSocketServer rebindAfterFailedAuth).1.clients (some 3)
      = none ∧
    (run demoStore NewWebSocketServer rebindAfterFailedAuth).1.membersAuthenticated = false := by
  decide

end ChatCli
